/-
Verification of the per-key token-bucket rate limiter
(`app/rate_limiter.py` / `app/token_bucket.py`).

The embedding is a direct shallow translation of the Python source:

* The class `TokenBucket` becomes a structure holding the three policy
  fields (`capacity`, `refill_rate`, `refill_time`) together with the
  mutable `buckets` dictionary, modelled as a function
  `String → Option (ℚ × ℚ)` mapping a key to its `(tokens, lastRefill)`
  pair.  Python numbers (floats/ints) are modelled by exact rationals.
* Every method receives the current time `now : ℚ` as an explicit
  argument; in the source it is obtained from `datetime.now()` inside the
  method body, so one call uses a single instant.
* Methods that mutate `self` return the updated structure.
* `parse_rate_limit_string` and the configuration part of the
  `rate_limit` decorator become `Except`-valued functions: a Python
  `raise` is `Except.error`.
* The rejection branch of the decorator's `wrapper` becomes
  `wrapper_handle`, returning the structured 429 payload.
-/
import Mathlib

namespace SampleRateLimiter

/-- State of the Python `TokenBucket` object: the immutable policy fields
plus the `buckets` dict mapping a key to its `(tokens, last_time)` tuple. -/
structure TokenBucket where
  capacity : ℚ
  refill_rate : ℚ
  refill_time : ℚ
  buckets : String → Option (ℚ × ℚ)

/-- Source `TokenBucket.__init__(capacity, refill_rate, refill_time)`:
the dict starts empty. -/
def TokenBucket.init (capacity refill_rate refill_time : ℚ) : TokenBucket :=
  ⟨capacity, refill_rate, refill_time, fun _ => none⟩

/-- Write one key of the `buckets` dict (`self.buckets[key] = v`). -/
def TokenBucket.setKey (b : TokenBucket) (key : String) (v : ℚ × ℚ) : TokenBucket :=
  { b with buckets := fun k => if k = key then some v else b.buckets k }

/-- Source `TokenBucket._refill(key)`:
```
tokens, last_time = self.buckets[key]
now = datetime.now()
elapsed = (now - last_time).total_seconds()
added_tokens = (elapsed / self.refill_time) * self.refill_rate
tokens = min(self.capacity, tokens + added_tokens)
self.buckets[key] = (tokens, now)
```
In the source an absent key would raise `KeyError`; both call sites
guarantee the key is present, and in that case we return the state
unchanged. -/
def TokenBucket.refill (b : TokenBucket) (key : String) (now : ℚ) : TokenBucket :=
  match b.buckets key with
  | none => b
  | some (tokens, last_time) =>
    let elapsed := now - last_time
    let added_tokens := (elapsed / b.refill_time) * b.refill_rate
    let tokens' := min b.capacity (tokens + added_tokens)
    b.setKey key (tokens', now)

/-- The first two lines of `allow_request`:
`if key not in self.buckets: self.buckets[key] = (self.capacity, datetime.now())`. -/
def TokenBucket.ensure_key (b : TokenBucket) (key : String) (now : ℚ) : TokenBucket :=
  match b.buckets key with
  | none => b.setKey key (b.capacity, now)
  | some _ => b

/-- Source `TokenBucket.allow_request(key)`:
```
if key not in self.buckets:
    self.buckets[key] = (self.capacity, datetime.now())
self._refill(key)
tokens, last_time = self.buckets[key]
if tokens >= 1:
    self.buckets[key] = (tokens - 1, last_time)
    return True
return False
```
Returns the decision together with the updated object. -/
def TokenBucket.allow_request (b : TokenBucket) (key : String) (now : ℚ) :
    Bool × TokenBucket :=
  let b₁ := (b.ensure_key key now).refill key now
  match b₁.buckets key with
  | none => (false, b₁)
  | some (tokens, last_time) =>
    if 1 ≤ tokens then
      (true, b₁.setKey key (tokens - 1, last_time))
    else
      (false, b₁)

/-- Source `TokenBucket.get_token_info(key)`:
```
if key not in self.buckets:
    return self.capacity, datetime.now()
self._refill(key)
return self.buckets[key]
```
After `_refill` the key is guaranteed present; `getD` only supplies an
unreachable default for totality. -/
def TokenBucket.get_token_info (b : TokenBucket) (key : String) (now : ℚ) :
    (ℚ × ℚ) × TokenBucket :=
  match b.buckets key with
  | none => ((b.capacity, now), b)
  | some _ =>
    let b₁ := b.refill key now
    ((b₁.buckets key).getD (b.capacity, now), b₁)

/-- Python `int(x)` applied to a (here: exact rational) number: truncation
toward zero.  On a reduced rational this is T-division of numerator by
denominator. -/
def pyInt (q : ℚ) : ℤ :=
  q.num.tdiv (q.den : ℤ)

/-- The structured 429 rejection produced by the decorator's `wrapper`:
the `detail` payload `{limit, remaining, reset_in_seconds}` plus the
`Retry-After` header value (the source puts the same `retry_after`
integer in both places; `remaining` is the hard-coded `0`). -/
structure RejectionDetail where
  limit : ℚ
  remaining : ℕ
  reset_in_seconds : ℤ
  retry_after_header : ℤ
  deriving DecidableEq

/-- The rate-limiting core of the decorator's `wrapper`
(`app/rate_limiter.py`, after the request object has been located):
```
if bucket.allow_request(user_key):
    return func(...)
else:
    tokens, _ = bucket.get_token_info(user_key)
    seconds_until_next_token = bucket.refill_time / bucket.refill_rate
    retry_after = int(seconds_until_next_token)
    ... raise HTTPException(429, detail={..., "remaining": 0,
        "reset_in_seconds": retry_after}, headers={..., "Retry-After": retry_after})
```
`none` means the request was admitted and the wrapped handler runs. -/
def wrapper_handle (b : TokenBucket) (user_key : String) (now : ℚ) :
    Option RejectionDetail × TokenBucket :=
  let res := b.allow_request user_key now
  if res.1 then
    (none, res.2)
  else
    let info := res.2.get_token_info user_key now
    let seconds_until_next_token := b.refill_time / b.refill_rate
    let retry_after := pyInt seconds_until_next_token
    (some ⟨b.capacity, 0, retry_after, retry_after⟩, info.2)

/-- Python `'/' in s` on a string modelled as its character list. -/
def pyContains (s : List Char) (c : Char) : Bool :=
  s.any (fun x => x = c)

/-- Python `s.split(sep)` for a one-character separator: splits at every
occurrence of `sep`, keeping empty fragments (`''.split('/') = ['']`,
`'/b'.split('/') = ['', 'b']`). -/
def pySplit (sep : Char) : List Char → List (List Char)
  | [] => [[]]
  | c :: rest =>
    let r := pySplit sep rest
    if c = sep then
      [] :: r
    else
      match r with
      | [] => [[c]]
      | g :: gs => (c :: g) :: gs

/-- Digit-string accumulator for `pyIntOfString`. -/
def digitsToNat : List Char → ℕ → Option ℕ
  | [], acc => some acc
  | c :: rest, acc =>
    if c.isDigit then digitsToNat rest (10 * acc + (c.toNat - 48)) else none

/-- Python `int(s)`: an optional sign followed by at least one decimal
digit (whitespace/underscore tolerance of CPython is irrelevant to the
inputs exercised here); `none` models the `ValueError`. -/
def pyIntOfString (s : List Char) : Option ℤ :=
  match s with
  | [] => none
  | '-' :: rest =>
    if rest = [] then none else (digitsToNat rest 0).map (fun n => -(n : ℤ))
  | '+' :: rest =>
    if rest = [] then none else (digitsToNat rest 0).map (fun n => (n : ℤ))
  | _ => (digitsToNat s 0).map (fun n => (n : ℤ))

/-- The `period_map` dict of `parse_rate_limit_string`. -/
def period_map (p : List Char) : Option ℤ :=
  if p = "second".data then some 1
  else if p = "minute".data then some 60
  else if p = "hour".data then some 3600
  else if p = "day".data then some 86400
  else none

/-- Source `parse_rate_limit_string(rate_string)`:
```
if '/' not in rate_string: raise ValueError(...)
requests, period = rate_string.split('/')   # raises on != 2 parts
requests = int(requests)                    # raises on non-integer
if period not in period_map: raise ValueError(...)
return requests, requests, period_map[period]
```
Result: `(capacity, refill_rate, refill_time)`.  The Python string is
modelled as its character list. -/
def parse_rate_limit_string (rate_string : List Char) : Except String (ℤ × ℤ × ℤ) :=
  if ¬ pyContains rate_string '/' then
    .error "Rate limit string must be in format N/period"
  else
    match pySplit '/' rate_string with
    | [requests_str, period] =>
      match pyIntOfString requests_str with
      | none => .error "invalid literal for int()"
      | some requests =>
        match period_map period with
        | none => .error "Unsupported period"
        | some refill_time => .ok (requests, requests, refill_time)
    | _ => .error "too many values to unpack"

/-- The configuration part of the `rate_limit` decorator: the `limit`
argument is either a shorthand string or a numeric capacity, with the
optional `refill_rate` / `refill_time` arguments:
```
if isinstance(limit, str):
    if refill_rate is not None or refill_time is not None: raise ValueError(...)
    capacity, refill_rate, refill_time = parse_rate_limit_string(limit)
else:
    capacity = limit
    if refill_rate is None or refill_time is None: raise ValueError(...)
bucket = TokenBucket(capacity, refill_rate, refill_time)
```
Returns the `(capacity, refill_rate, refill_time)` triple the bucket is
built from. -/
def rate_limit (limit : List Char ⊕ ℤ) (refill_rate refill_time : Option ℤ) :
    Except String (ℤ × ℤ × ℤ) :=
  match limit with
  | .inl s =>
    if refill_rate.isSome ∨ refill_time.isSome then
      .error "Cannot specify refill_rate or refill_time with string format"
    else
      parse_rate_limit_string s
  | .inr capacity =>
    match refill_rate, refill_time with
    | some r, some t => .ok (capacity, r, t)
    | _, _ => .error "Must specify refill_rate and refill_time with numeric format"

/-- Build the `TokenBucket` object from a configuration triple
(`bucket = TokenBucket(capacity, refill_rate, refill_time)`). -/
def build_bucket (cfg : ℤ × ℤ × ℤ) : TokenBucket :=
  TokenBucket.init (cfg.1 : ℚ) (cfg.2.1 : ℚ) (cfg.2.2 : ℚ)

/-- Run a sequence of `allow_request` calls, each given as a
`(key, time)` pair, returning the final object state. -/
def run_requests (b : TokenBucket) (ops : List (String × ℚ)) : TokenBucket :=
  ops.foldl (fun st op => (st.allow_request op.1 op.2).2) b

/-- Run a sequence of `allow_request` calls and collect the decisions. -/
def run_results (b : TokenBucket) (ops : List (String × ℚ)) : List Bool :=
  match ops with
  | [] => []
  | op :: rest =>
    let res := b.allow_request op.1 op.2
    res.1 :: run_results res.2 rest

/-- The times at which `allow_request` is called for one particular key,
in order, within a sequence of calls. -/
def timesOn (ops : List (String × ℚ)) (k : String) : List ℚ :=
  (ops.filter (fun op => op.1 = k)).map (fun op => op.2)

/-! ### Basic lemmas about the store operations -/

@[simp]
theorem init_capacity (c r t : ℚ) : (TokenBucket.init c r t).capacity = c := rfl

@[simp]
theorem init_refill_rate (c r t : ℚ) : (TokenBucket.init c r t).refill_rate = r := rfl

@[simp]
theorem init_refill_time (c r t : ℚ) : (TokenBucket.init c r t).refill_time = t := rfl

@[simp]
theorem init_buckets (c r t : ℚ) (k : String) :
    (TokenBucket.init c r t).buckets k = none := rfl

@[simp]
theorem setKey_self (b : TokenBucket) (key : String) (v : ℚ × ℚ) :
    (b.setKey key v).buckets key = some v := by
  simp [TokenBucket.setKey]

theorem setKey_other (b : TokenBucket) {key k : String} (v : ℚ × ℚ) (hk : k ≠ key) :
    (b.setKey key v).buckets k = b.buckets k := by
  simp [TokenBucket.setKey, hk]

@[simp]
theorem setKey_capacity (b : TokenBucket) (key : String) (v : ℚ × ℚ) :
    (b.setKey key v).capacity = b.capacity := rfl

@[simp]
theorem setKey_refill_rate (b : TokenBucket) (key : String) (v : ℚ × ℚ) :
    (b.setKey key v).refill_rate = b.refill_rate := rfl

@[simp]
theorem setKey_refill_time (b : TokenBucket) (key : String) (v : ℚ × ℚ) :
    (b.setKey key v).refill_time = b.refill_time := rfl

theorem refill_of_some {b : TokenBucket} {key : String} {tok last : ℚ} (now : ℚ)
    (h : b.buckets key = some (tok, last)) :
    b.refill key now =
      b.setKey key
        (min b.capacity (tok + ((now - last) / b.refill_time) * b.refill_rate), now) := by
  unfold TokenBucket.refill
  rw [h]

theorem refill_of_none {b : TokenBucket} {key : String} (now : ℚ)
    (h : b.buckets key = none) : b.refill key now = b := by
  unfold TokenBucket.refill
  rw [h]

theorem ensure_key_of_some {b : TokenBucket} {key : String} {v : ℚ × ℚ} (now : ℚ)
    (h : b.buckets key = some v) : b.ensure_key key now = b := by
  unfold TokenBucket.ensure_key
  rw [h]

theorem ensure_key_of_none {b : TokenBucket} {key : String} (now : ℚ)
    (h : b.buckets key = none) :
    b.ensure_key key now = b.setKey key (b.capacity, now) := by
  unfold TokenBucket.ensure_key
  rw [h]

@[simp]
theorem ensure_key_capacity (b : TokenBucket) (key : String) (now : ℚ) :
    (b.ensure_key key now).capacity = b.capacity := by
  unfold TokenBucket.ensure_key
  split <;> rfl

@[simp]
theorem ensure_key_refill_rate (b : TokenBucket) (key : String) (now : ℚ) :
    (b.ensure_key key now).refill_rate = b.refill_rate := by
  unfold TokenBucket.ensure_key
  split <;> rfl

@[simp]
theorem ensure_key_refill_time (b : TokenBucket) (key : String) (now : ℚ) :
    (b.ensure_key key now).refill_time = b.refill_time := by
  unfold TokenBucket.ensure_key
  split <;> rfl

@[simp]
theorem refill_capacity (b : TokenBucket) (key : String) (now : ℚ) :
    (b.refill key now).capacity = b.capacity := by
  unfold TokenBucket.refill
  split <;> rfl

@[simp]
theorem refill_refill_rate (b : TokenBucket) (key : String) (now : ℚ) :
    (b.refill key now).refill_rate = b.refill_rate := by
  unfold TokenBucket.refill
  split <;> rfl

@[simp]
theorem refill_refill_time (b : TokenBucket) (key : String) (now : ℚ) :
    (b.refill key now).refill_time = b.refill_time := by
  unfold TokenBucket.refill
  split <;> rfl

@[simp]
theorem allow_request_capacity (b : TokenBucket) (key : String) (now : ℚ) :
    ((b.allow_request key now).2).capacity = b.capacity := by
  simp only [TokenBucket.allow_request]
  split
  · simp
  · split <;> simp

@[simp]
theorem allow_request_refill_rate (b : TokenBucket) (key : String) (now : ℚ) :
    ((b.allow_request key now).2).refill_rate = b.refill_rate := by
  simp only [TokenBucket.allow_request]
  split
  · simp
  · split <;> simp

@[simp]
theorem allow_request_refill_time (b : TokenBucket) (key : String) (now : ℚ) :
    ((b.allow_request key now).2).refill_time = b.refill_time := by
  simp only [TokenBucket.allow_request]
  split
  · simp
  · split <;> simp

theorem ensure_key_frame (b : TokenBucket) {key k : String} (now : ℚ) (hk : k ≠ key) :
    (b.ensure_key key now).buckets k = b.buckets k := by
  unfold TokenBucket.ensure_key
  split
  · exact setKey_other _ _ hk
  · rfl

theorem refill_frame (b : TokenBucket) {key k : String} (now : ℚ) (hk : k ≠ key) :
    (b.refill key now).buckets k = b.buckets k := by
  unfold TokenBucket.refill
  split
  · rfl
  · exact setKey_other _ _ hk

theorem allow_request_frame (b : TokenBucket) {key k : String} (now : ℚ) (hk : k ≠ key) :
    ((b.allow_request key now).2).buckets k = b.buckets k := by
  have hbase : ((b.ensure_key key now).refill key now).buckets k = b.buckets k := by
    rw [refill_frame _ now hk, ensure_key_frame _ now hk]
  simp only [TokenBucket.allow_request]
  split
  · exact hbase
  · split
    · rw [setKey_other _ _ hk]
      exact hbase
    · exact hbase

/-- The `(tokens, last_time)` pair `allow_request` reads after the
create-if-absent step: the stored entry, or a fresh full bucket. -/
def pre_entry (b : TokenBucket) (key : String) (now : ℚ) : ℚ × ℚ :=
  (b.buckets key).getD (b.capacity, now)

/-- The post-refill token count inside `allow_request`. -/
def post_refill_tokens (b : TokenBucket) (key : String) (now : ℚ) : ℚ :=
  min b.capacity
    ((pre_entry b key now).1
      + ((now - (pre_entry b key now).2) / b.refill_time) * b.refill_rate)

theorem ensure_key_refill_buckets (b : TokenBucket) (key : String) (now : ℚ) :
    ((b.ensure_key key now).refill key now).buckets key
      = some (post_refill_tokens b key now, now) := by
  cases h : b.buckets key with
  | none =>
    rw [ensure_key_of_none now h, refill_of_some now (setKey_self b key _), setKey_self]
    simp [post_refill_tokens, pre_entry, h]
  | some v =>
    obtain ⟨tok, last⟩ := v
    rw [ensure_key_of_some now h, refill_of_some now h, setKey_self]
    simp [post_refill_tokens, pre_entry, h]

theorem allow_request_eq (b : TokenBucket) (key : String) (now : ℚ) :
    b.allow_request key now
      = if 1 ≤ post_refill_tokens b key now then
          (true, ((b.ensure_key key now).refill key now).setKey key
            (post_refill_tokens b key now - 1, now))
        else
          (false, (b.ensure_key key now).refill key now) := by
  simp only [TokenBucket.allow_request]
  rw [ensure_key_refill_buckets]

theorem allow_request_fst (b : TokenBucket) (key : String) (now : ℚ) :
    (b.allow_request key now).1 = decide (1 ≤ post_refill_tokens b key now) := by
  rw [allow_request_eq]
  by_cases h1 : 1 ≤ post_refill_tokens b key now <;> simp [h1]

theorem post_refill_congr (b₁ b₂ : TokenBucket) (key : String) (now : ℚ)
    (hc : b₁.capacity = b₂.capacity) (hr : b₁.refill_rate = b₂.refill_rate)
    (ht : b₁.refill_time = b₂.refill_time) (hb : b₁.buckets key = b₂.buckets key) :
    post_refill_tokens b₁ key now = post_refill_tokens b₂ key now := by
  simp [post_refill_tokens, pre_entry, hc, hr, ht, hb]

/-! ### The claims -/

/-- C1: for a key already present in the store, `_refill` at time `now`
sets that key's bucket to
`(min capacity (tokens + ((now - lastRefill) / refillPeriod) * refillRate), now)`
and touches no other key; and every `allow_request` call on a present key
stores `lastRefill = now` — whether or not the consume step succeeds — so
the next refill measures elapsed time from this call. -/
theorem C1_refill_updates_tokens_and_timestamp (b : TokenBucket) (key : String)
    (tok last now : ℚ) (h : b.buckets key = some (tok, last)) :
    (b.refill key now).buckets key
        = some (min b.capacity (tok + ((now - last) / b.refill_time) * b.refill_rate), now)
    ∧ (∀ k, k ≠ key → (b.refill key now).buckets k = b.buckets k)
    ∧ ∃ tok', ((b.allow_request key now).2).buckets key = some (tok', now) := by
  refine ⟨?_, ?_, ?_⟩
  · rw [refill_of_some now h, setKey_self]
  · intro k hk
    exact refill_frame _ now hk
  · rw [allow_request_eq]
    by_cases h1 : 1 ≤ post_refill_tokens b key now
    · exact ⟨post_refill_tokens b key now - 1, by simp [h1]⟩
    · exact ⟨post_refill_tokens b key now, by simp [h1, ensure_key_refill_buckets]⟩

/-- Witness for C1 at a concrete bucket: key `"a"` holds `(4, 3)`,
capacity `10`, rate `2` per `60`; refilling at time `63` credits two
tokens and stamps `63`, and key `"b"` is untouched. -/
theorem C1_witness :
    (((TokenBucket.init 10 2 60).setKey "a" (4, 3)).refill "a" 63).buckets "a"
        = some (min ((TokenBucket.init 10 2 60).setKey "a" (4, 3)).capacity
            (4 + ((63 - 3) / ((TokenBucket.init 10 2 60).setKey "a" (4, 3)).refill_time)
              * ((TokenBucket.init 10 2 60).setKey "a" (4, 3)).refill_rate), 63)
    ∧ (((TokenBucket.init 10 2 60).setKey "a" (4, 3)).refill "a" 63).buckets "b"
        = ((TokenBucket.init 10 2 60).setKey "a" (4, 3)).buckets "b" := by
  have h := C1_refill_updates_tokens_and_timestamp
    ((TokenBucket.init 10 2 60).setKey "a" (4, 3)) "a" 4 3 63 (setKey_self _ _ _)
  exact ⟨h.1, h.2.1 "b" (by decide)⟩

/-- C3: `allow_request` admits iff the post-refill token count is at least
1; on admission it stores exactly that count minus one, keeping the
refill's timestamp and all other keys; on rejection it returns `false`
and the state is exactly the post-refill state (no rollback). -/
theorem C3_consume_semantics (b : TokenBucket) (key : String) (now tok₁ last₁ : ℚ)
    (h : ((b.ensure_key key now).refill key now).buckets key = some (tok₁, last₁)) :
    ((b.allow_request key now).1 = true ↔ 1 ≤ tok₁)
    ∧ (1 ≤ tok₁ →
        ((b.allow_request key now).2).buckets key = some (tok₁ - 1, last₁)
        ∧ ∀ k, k ≠ key →
            ((b.allow_request key now).2).buckets k
              = ((b.ensure_key key now).refill key now).buckets k)
    ∧ (¬ 1 ≤ tok₁ →
        (b.allow_request key now).2 = (b.ensure_key key now).refill key now) := by
  have heq := ensure_key_refill_buckets b key now
  rw [h] at heq
  injection heq with heq2
  rw [Prod.mk.injEq] at heq2
  obtain ⟨htok, hlast⟩ := heq2
  rw [htok, hlast]
  rw [allow_request_eq]
  by_cases h1 : 1 ≤ post_refill_tokens b key now
  · exact ⟨by simp [h1],
      fun _ => ⟨by simp [h1], fun k hk => by simp [h1, setKey_other _ _ hk]⟩,
      fun hcon => absurd h1 hcon⟩
  · exact ⟨by simp [h1], fun hcon => absurd hcon h1, fun _ => by simp [h1]⟩

/-- Witness for C3: a fresh `3 per 60` bucket admits the first request and
stores `3 - 1` tokens for its key. -/
theorem C3_witness :
    ((TokenBucket.init 3 3 60).allow_request "u" 0).1 = true
    ∧ (((TokenBucket.init 3 3 60).allow_request "u" 0).2).buckets "u" = some (3 - 1, 0) := by
  have h := C3_consume_semantics (TokenBucket.init 3 3 60) "u" 0 3 0 (by
    rw [ensure_key_of_none 0 rfl, refill_of_some 0 (setKey_self _ _ _), setKey_self]
    norm_num [TokenBucket.init])
  exact ⟨h.1.mpr (by norm_num), (h.2.1 (by norm_num)).1⟩

/-- C6 as stated is false on the code: refilling with `now` earlier than
`lastRefill` does change the stored token count.  With capacity 10, rate
1 per 1, a bucket holding `(5, 10)` refilled at time `0` drops to `-5`
tokens — the negative elapsed time is not clamped. -/
theorem C6_counterexample :
    (((TokenBucket.init 10 1 1).setKey "a" (5, 10)).refill "a" 0).buckets "a"
      = some (-5, 0)
    ∧ ((-5 : ℚ) ≠ 5) := by
  constructor
  · rw [refill_of_some 0 (setKey_self _ _ _), setKey_self]
    simp [TokenBucket.init]
    norm_num
  · norm_num

/-- C6 amended: the code does not clamp negative elapsed time.  Running
the refill step with `now < lastRefill` writes
`min(capacity, tokens + (elapsed/refillPeriod)*refillRate)` with a
strictly negative credit, so whenever `tokens ≤ capacity` the stored
count strictly decreases (it can go below zero) and `lastRefill` becomes
`now`. -/
theorem C6_amended_negative_elapsed_subtracts (b : TokenBucket) (key : String)
    (tok last now : ℚ) (h : b.buckets key = some (tok, last)) (hlt : now < last)
    (ht : 0 < b.refill_time) (hr : 0 < b.refill_rate) :
    (b.refill key now).buckets key
      = some (min b.capacity (tok + ((now - last) / b.refill_time) * b.refill_rate), now)
    ∧ (tok ≤ b.capacity →
        min b.capacity (tok + ((now - last) / b.refill_time) * b.refill_rate) < tok) := by
  refine ⟨by rw [refill_of_some now h, setKey_self], fun hcap => ?_⟩
  have hneg : ((now - last) / b.refill_time) * b.refill_rate < 0 :=
    mul_neg_of_neg_of_pos (div_neg_of_neg_of_pos (by linarith) ht) hr
  have h2 : tok + ((now - last) / b.refill_time) * b.refill_rate < tok := by linarith
  exact lt_of_le_of_lt (min_le_right _ _) h2

/-- Witness for the amended C6 at the concrete bucket of the
counterexample: the post-refill count is strictly below the previous 5. -/
theorem C6_amended_witness :
    (((TokenBucket.init 10 1 1).setKey "a" (5, 10)).refill "a" 0).buckets "a"
      = some (min ((TokenBucket.init 10 1 1).setKey "a" (5, 10)).capacity
          (5 + ((0 - 10) / ((TokenBucket.init 10 1 1).setKey "a" (5, 10)).refill_time)
            * ((TokenBucket.init 10 1 1).setKey "a" (5, 10)).refill_rate), 0)
    ∧ min ((TokenBucket.init 10 1 1).setKey "a" (5, 10)).capacity
          (5 + ((0 - 10) / ((TokenBucket.init 10 1 1).setKey "a" (5, 10)).refill_time)
            * ((TokenBucket.init 10 1 1).setKey "a" (5, 10)).refill_rate) < 5 := by
  have h := C6_amended_negative_elapsed_subtracts
    ((TokenBucket.init 10 1 1).setKey "a" (5, 10)) "a" 5 10 0 (setKey_self _ _ _)
    (by norm_num) (by norm_num [TokenBucket.init]) (by norm_num [TokenBucket.init])
  exact ⟨h.1, h.2 (by norm_num [TokenBucket.init])⟩

/-- C8: an `allow_request` call for key A leaves key B's stored entry
unchanged, and the admission decision for B (at any time) is the same
before and after the call on A. -/
theorem C8_key_isolation (b : TokenBucket) (A B : String) (now : ℚ) (hne : B ≠ A) :
    ((b.allow_request A now).2).buckets B = b.buckets B
    ∧ ∀ now', (((b.allow_request A now).2).allow_request B now').1
        = (b.allow_request B now').1 := by
  have hframe := allow_request_frame b (k := B) now hne
  refine ⟨hframe, fun now' => ?_⟩
  rw [allow_request_fst, allow_request_fst,
    post_refill_congr ((b.allow_request A now).2) b B now'
      (allow_request_capacity ..) (allow_request_refill_rate ..)
      (allow_request_refill_time ..) hframe]

/-- Witness for C8: exhausting key "A" on a capacity-1 bucket leaves key
"B"'s entry and decision unchanged. -/
theorem C8_witness :
    (((TokenBucket.init 1 1 60).allow_request "A" 0).2).buckets "B"
      = (TokenBucket.init 1 1 60).buckets "B"
    ∧ ((((TokenBucket.init 1 1 60).allow_request "A" 0).2).allow_request "B" 0).1
      = ((TokenBucket.init 1 1 60).allow_request "B" 0).1 := by
  have h := C8_key_isolation (TokenBucket.init 1 1 60) "A" "B" 0 (by decide)
  exact ⟨h.1, h.2 0⟩

/-- C10: `get_token_info` is not a pure read.  For an absent key it
returns `(capacity, now)` and leaves the store exactly as it was (no
insertion); for a present key it performs the refill step — the returned
state is `_refill`'s state, the key's entry is overwritten with the
refilled token count and `lastRefill = now` — and returns that entry. -/
theorem C10_get_token_info_effects (b : TokenBucket) (key : String) (now : ℚ) :
    (b.buckets key = none → b.get_token_info key now = ((b.capacity, now), b))
    ∧ (∀ tok last, b.buckets key = some (tok, last) →
        (b.get_token_info key now).2 = b.refill key now
        ∧ ((b.get_token_info key now).2).buckets key
            = some (min b.capacity (tok + ((now - last) / b.refill_time) * b.refill_rate), now)
        ∧ (b.get_token_info key now).1
            = (min b.capacity (tok + ((now - last) / b.refill_time) * b.refill_rate), now)) := by
  constructor
  · intro h
    unfold TokenBucket.get_token_info
    rw [h]
  · intro tok last h
    have hrw := refill_of_some now h
    have hkey : (b.refill key now).buckets key
        = some (min b.capacity (tok + ((now - last) / b.refill_time) * b.refill_rate), now) := by
      rw [hrw, setKey_self]
    unfold TokenBucket.get_token_info
    rw [h]
    dsimp only
    exact ⟨rfl, hkey, by rw [hkey]; rfl⟩

/-- Witness for C10: reading an absent key changes nothing; reading a
present key refills it in place. -/
theorem C10_witness :
    (TokenBucket.init 2 1 1).get_token_info "ghost" 7
      = (((TokenBucket.init 2 1 1).capacity, 7), TokenBucket.init 2 1 1)
    ∧ (((TokenBucket.init 2 1 1).setKey "a" (0, 3)).get_token_info "a" 4).2
      = ((TokenBucket.init 2 1 1).setKey "a" (0, 3)).refill "a" 4 := by
  refine ⟨(C10_get_token_info_effects (TokenBucket.init 2 1 1) "ghost" 7).1 rfl, ?_⟩
  exact ((C10_get_token_info_effects ((TokenBucket.init 2 1 1).setKey "a" (0, 3)) "a" 4).2
    0 3 (setKey_self _ _ _)).1

/-- Python `int` truncation agrees with the floor on non-negative
rationals. -/
theorem pyInt_eq_floor (q : ℚ) (hq : 0 ≤ q) : pyInt q = ⌊q⌋ := by
  rw [Rat.floor_def, pyInt]
  exact Int.tdiv_eq_ediv (Rat.num_nonneg.mpr hq) (Int.natCast_nonneg _)

/-- C4 as stated is false on the code: with `refillPeriod = 60` and
`refillRate = 7`, a rejection reports `retry_after = int(60/7) = 8`,
while `ceil(refillPeriod/refillRate) = 9`.  The code truncates (Python
`int(...)`); it does not take a ceiling. -/
theorem C4_counterexample :
    (wrapper_handle ((TokenBucket.init 1 7 60).setKey "u" (0, 0)) "u" 0).1
      = some ⟨1, 0, 8, 8⟩
    ∧ (8 : ℤ) ≠ ⌈((TokenBucket.init 1 7 60).refill_time
        / (TokenBucket.init 1 7 60).refill_rate : ℚ)⌉ := by
  constructor
  · simp [wrapper_handle, allow_request_eq, post_refill_tokens, pre_entry,
      TokenBucket.init, TokenBucket.setKey, pyInt]
    norm_num
    decide
  · have h : ⌈((60:ℚ)/7)⌉ = 9 := by
      rw [Int.ceil_eq_iff]
      norm_num
    simp only [init_refill_time, init_refill_rate]
    rw [h]
    norm_num

/-- C4 amended: on every rejection the Retry-After header and the
`reset_in_seconds` field both carry `int(refillPeriod / refillRate)` —
for positive rate and period this is the floor, not the ceiling, of
`refillPeriod / refillRate` — independent of the bucket's current
fractional token count, and `remaining` is the constant 0.  With
`capacity=3, refillRate=3, refillPeriod=60`, three immediate requests
are admitted and a fourth immediate request is rejected with
`remaining = 0` and `reset_in_seconds = 20` (floor and ceiling agree on
60/3). -/
theorem C4_amended_retry_after_is_floor (b : TokenBucket) (key : String) (now : ℚ)
    (d : RejectionDetail) (hrej : (wrapper_handle b key now).1 = some d)
    (hr : 0 < b.refill_rate) (ht : 0 < b.refill_time) :
    (d.reset_in_seconds = ⌊(b.refill_time / b.refill_rate : ℚ)⌋
      ∧ d.retry_after_header = d.reset_in_seconds
      ∧ d.remaining = 0
      ∧ d.limit = b.capacity)
    ∧ run_results (TokenBucket.init 3 3 60) [("u", 0), ("u", 0), ("u", 0), ("u", 0)]
        = [true, true, true, false]
    ∧ (wrapper_handle (run_requests (TokenBucket.init 3 3 60)
          [("u", 0), ("u", 0), ("u", 0)]) "u" 0).1
        = some ⟨3, 0, 20, 20⟩ := by
  refine ⟨?_, ?_, ?_⟩
  · have hfloor := pyInt_eq_floor (b.refill_time / b.refill_rate)
      (le_of_lt (div_pos ht hr))
    simp only [wrapper_handle] at hrej
    by_cases hall : (b.allow_request key now).1
    · simp [hall] at hrej
    · simp only [hall, Bool.false_eq_true, if_false] at hrej
      injection hrej with hd
      rw [← hd]
      exact ⟨hfloor, rfl, rfl, rfl⟩
  · simp [run_results, allow_request_eq, post_refill_tokens, pre_entry,
      TokenBucket.ensure_key, TokenBucket.refill, TokenBucket.setKey, TokenBucket.init]
    norm_num
  · simp [run_requests, wrapper_handle, allow_request_eq, post_refill_tokens, pre_entry,
      TokenBucket.ensure_key, TokenBucket.refill, TokenBucket.setKey,
      TokenBucket.get_token_info, TokenBucket.init, pyInt]
    norm_num

/-- Witness for the amended C4, at the policy `rate 7 per 60` of the
counterexample and at the burst-then-exhaust scenario. -/
theorem C4_amended_witness :
    ((8 : ℤ) = ⌊(((TokenBucket.init 1 7 60).setKey "u" (0, 0)).refill_time
        / ((TokenBucket.init 1 7 60).setKey "u" (0, 0)).refill_rate : ℚ)⌋)
    ∧ run_results (TokenBucket.init 3 3 60) [("u", 0), ("u", 0), ("u", 0), ("u", 0)]
        = [true, true, true, false] := by
  have hrej : (wrapper_handle ((TokenBucket.init 1 7 60).setKey "u" (0, 0)) "u" 0).1
      = some ⟨1, 0, 8, 8⟩ := by
    simp [wrapper_handle, allow_request_eq, post_refill_tokens, pre_entry,
      TokenBucket.init, TokenBucket.setKey, pyInt]
    norm_num
    decide
  have h := C4_amended_retry_after_is_floor ((TokenBucket.init 1 7 60).setKey "u" (0, 0))
    "u" 0 ⟨1, 0, 8, 8⟩ hrej (by norm_num [TokenBucket.init]) (by norm_num [TokenBucket.init])
  exact ⟨h.1.1, h.2.1⟩

/-- C5 as stated is false on the code: non-positive numeric parameters
are never validated.  `rate_limit(0, -5, 60)` and the shorthand
`"0/minute"` both construct a limiter without raising. -/
theorem C5_counterexample :
    rate_limit (Sum.inr 0) (some (-5)) (some 60) = Except.ok (0, -5, 60)
    ∧ parse_rate_limit_string "0/minute".data = Except.ok (0, 0, 60) :=
  ⟨rfl, rfl⟩

/-- C5 amended: a shorthand string without `'/'`, an unrecognized period
unit, and supplying `refill_rate`/`refill_time` together with the
shorthand string each raise an error at limiter construction time; but
non-positive capacity, refill rate, or refill period are NOT validated —
`rate_limit(0, -5, 60)` constructs a limiter. -/
theorem C5_amended_construction_errors :
    (∀ s : List Char, pyContains s '/' = false →
      (parse_rate_limit_string s).isOk = false)
    ∧ (∀ (s requests_str period : List Char) (n : ℤ),
        pySplit '/' s = [requests_str, period] →
        pyContains s '/' = true →
        pyIntOfString requests_str = some n →
        period_map period = none →
        (parse_rate_limit_string s).isOk = false)
    ∧ (∀ (s : List Char) (r t : Option ℤ), r.isSome ∨ t.isSome →
        (rate_limit (Sum.inl s) r t).isOk = false)
    ∧ rate_limit (Sum.inr 0) (some (-5)) (some 60) = Except.ok (0, -5, 60) := by
  refine ⟨?_, ?_, ?_, rfl⟩
  · intro s hs
    simp [parse_rate_limit_string, hs, Except.isOk, Except.toBool]
  · intro s rs per n hsplit hc hint hper
    simp [parse_rate_limit_string, hc, hsplit, hint, hper, Except.isOk, Except.toBool]
  · intro s r t hrt
    simp [rate_limit, hrt, Except.isOk, Except.toBool]

/-- Witness for the amended C5 on concrete configurations: `"abc"`,
`"10/fortnight"`, shorthand mixed with a numeric argument, and the
accepted non-positive numeric form. -/
theorem C5_amended_witness :
    (parse_rate_limit_string "abc".data).isOk = false
    ∧ (parse_rate_limit_string "10/fortnight".data).isOk = false
    ∧ (rate_limit (Sum.inl "10/minute".data) (some 1) none).isOk = false
    ∧ rate_limit (Sum.inr 0) (some (-5)) (some 60) = Except.ok (0, -5, 60) := by
  have h := C5_amended_construction_errors
  exact ⟨h.1 "abc".data rfl,
    h.2.1 "10/fortnight".data "10".data "fortnight".data 10 rfl rfl rfl rfl,
    h.2.2.1 "10/minute".data (some 1) none (Or.inl rfl),
    h.2.2.2⟩

/-- C7: parsing the shorthand `"<N>/<period>"` yields
`capacity = N, refillRate = N, refillPeriod = period_map(period)`; the
period table maps second/minute/hour/day to 1/60/3600/86400 seconds; and
the limiter configured from `"10/minute"` yields exactly the numeric
configuration `(10, 10, 60)`, so the buckets built from the two forms
have identical admission behavior for every key and request sequence. -/
theorem C7_shorthand_numeric_equivalence :
    (∀ (s requests_str period : List Char) (n secs : ℤ),
        pySplit '/' s = [requests_str, period] →
        pyContains s '/' = true →
        pyIntOfString requests_str = some n →
        period_map period = some secs →
        parse_rate_limit_string s = Except.ok (n, n, secs))
    ∧ (period_map "second".data = some 1 ∧ period_map "minute".data = some 60
        ∧ period_map "hour".data = some 3600 ∧ period_map "day".data = some 86400)
    ∧ rate_limit (Sum.inl "10/minute".data) none none = Except.ok (10, 10, 60)
    ∧ rate_limit (Sum.inr 10) (some 10) (some 60) = Except.ok (10, 10, 60)
    ∧ (∀ cfg₁ cfg₂ : ℤ × ℤ × ℤ,
        rate_limit (Sum.inl "10/minute".data) none none = Except.ok cfg₁ →
        rate_limit (Sum.inr 10) (some 10) (some 60) = Except.ok cfg₂ →
        ∀ ops : List (String × ℚ),
          run_results (build_bucket cfg₁) ops = run_results (build_bucket cfg₂) ops) := by
  refine ⟨?_, ⟨rfl, rfl, rfl, rfl⟩, rfl, rfl, ?_⟩
  · intro s rs per n secs hsplit hc hint hper
    simp [parse_rate_limit_string, hc, hsplit, hint, hper]
  · intro cfg₁ cfg₂ h₁ h₂ ops
    rw [show rate_limit (Sum.inl "10/minute".data) none none
        = Except.ok ((10:ℤ), (10:ℤ), (60:ℤ)) from rfl] at h₁
    rw [show rate_limit (Sum.inr 10) (some 10) (some 60)
        = Except.ok ((10:ℤ), (10:ℤ), (60:ℤ)) from rfl] at h₂
    injection h₁ with e₁
    injection h₂ with e₂
    rw [← e₁, ← e₂]

/-- Witness for C7 at the concrete shorthand `"10/minute"`. -/
theorem C7_witness :
    parse_rate_limit_string "10/minute".data = Except.ok (10, 10, 60)
    ∧ run_results (build_bucket (10, 10, 60)) [("k", 0), ("k", 5)]
        = run_results (build_bucket (10, 10, 60)) [("k", 0), ("k", 5)] := by
  have h := C7_shorthand_numeric_equivalence
  exact ⟨h.1 "10/minute".data "10".data "minute".data 10 60 rfl rfl rfl rfl,
    h.2.2.2.2 (10, 10, 60) (10, 10, 60) rfl rfl [("k", 0), ("k", 5)]⟩

theorem timesOn_cons (key : String) (now : ℚ) (rest : List (String × ℚ)) (k : String) :
    timesOn ((key, now) :: rest) k
      = if key = k then now :: timesOn rest k else timesOn rest k := by
  by_cases h : key = k <;> simp [timesOn, List.filter_cons, h]

/-- Invariant carried through a run: every stored bucket holds between 0
and `capacity` tokens, and its `lastRefill` stamp is no later than the
next scheduled call on its key. -/
def StoreInv (b : TokenBucket) (future : List (String × ℚ)) : Prop :=
  ∀ k tok last, b.buckets k = some (tok, last) →
    (0 ≤ tok ∧ tok ≤ b.capacity)
    ∧ ∀ t, (timesOn future k).head? = some t → last ≤ t

theorem post_refill_tokens_bounds (b : TokenBucket) (key : String) (now : ℚ)
    (hc : 0 < b.capacity) (hr : 0 < b.refill_rate) (ht : 0 < b.refill_time)
    (h0 : 0 ≤ (pre_entry b key now).1) (hlast : (pre_entry b key now).2 ≤ now) :
    0 ≤ post_refill_tokens b key now ∧ post_refill_tokens b key now ≤ b.capacity := by
  have hadded : 0 ≤ ((now - (pre_entry b key now).2) / b.refill_time) * b.refill_rate :=
    mul_nonneg (div_nonneg (by linarith) ht.le) hr.le
  exact ⟨le_min hc.le (by linarith), min_le_left _ _⟩

theorem allow_request_preserves_inv (b : TokenBucket) (key : String) (now : ℚ)
    (rest : List (String × ℚ))
    (hc : 0 < b.capacity) (hr : 0 < b.refill_rate) (ht : 0 < b.refill_time)
    (hchain : List.Chain' (· ≤ ·) (timesOn ((key, now) :: rest) key))
    (hinv : StoreInv b ((key, now) :: rest)) :
    StoreInv ((b.allow_request key now).2) rest := by
  have hnow : ∀ t, (timesOn rest key).head? = some t → now ≤ t := by
    intro t hhead
    rw [timesOn_cons, if_pos rfl] at hchain
    have := List.chain'_cons'.mp hchain
    exact this.1 t hhead
  have hpre : 0 ≤ (pre_entry b key now).1
      ∧ (pre_entry b key now).1 ≤ b.capacity
      ∧ (pre_entry b key now).2 ≤ now := by
    cases hb : b.buckets key with
    | none => simp [pre_entry, hb, hc.le]
    | some v =>
      obtain ⟨tok₀, last₀⟩ := v
      have h := hinv key tok₀ last₀ hb
      have hl : last₀ ≤ now := by
        apply h.2
        rw [timesOn_cons, if_pos rfl]
        rfl
      simp only [pre_entry, hb, Option.getD_some]
      exact ⟨h.1.1, h.1.2, hl⟩
  have hbounds := post_refill_tokens_bounds b key now hc hr ht hpre.1 hpre.2.2
  intro k tok last hk
  by_cases hkk : k = key
  · subst hkk
    rw [allow_request_eq] at hk
    by_cases h1 : 1 ≤ post_refill_tokens b k now
    · rw [if_pos h1] at hk
      simp only [setKey_self, Option.some.injEq, Prod.mk.injEq] at hk
      obtain ⟨htok, hlast⟩ := hk
      refine ⟨⟨by rw [← htok]; linarith [hbounds.1],
        by rw [allow_request_eq, if_pos h1, ← htok]; simp; linarith [hbounds.2]⟩, ?_⟩
      intro t hhead
      rw [← hlast]
      exact hnow t hhead
    · rw [if_neg h1] at hk
      simp only [ensure_key_refill_buckets, Option.some.injEq, Prod.mk.injEq] at hk
      obtain ⟨htok, hlast⟩ := hk
      refine ⟨⟨by rw [← htok]; exact hbounds.1,
        by rw [allow_request_eq, if_neg h1, ← htok]; simp; exact hbounds.2⟩, ?_⟩
      intro t hhead
      rw [← hlast]
      exact hnow t hhead
  · rw [allow_request_frame b now hkk] at hk
    have h := hinv k tok last hk
    refine ⟨⟨h.1.1, by rw [allow_request_capacity]; exact h.1.2⟩, ?_⟩
    intro t hhead
    apply h.2
    rwa [timesOn_cons, if_neg (fun he => hkk he.symm)]

theorem run_requests_inv (ops : List (String × ℚ)) :
    ∀ b : TokenBucket, 0 < b.capacity → 0 < b.refill_rate → 0 < b.refill_time →
      (∀ k, List.Chain' (· ≤ ·) (timesOn ops k)) →
      StoreInv b ops →
      ∀ k tok last, (run_requests b ops).buckets k = some (tok, last) →
        0 ≤ tok ∧ tok ≤ b.capacity := by
  induction ops with
  | nil =>
    intro b hc hr ht hchain hinv k tok last hk
    exact (hinv k tok last hk).1
  | cons op rest ih =>
    obtain ⟨key, now⟩ := op
    intro b hc hr ht hchain hinv k tok last hk
    have hstep := allow_request_preserves_inv b key now rest hc hr ht (hchain key) hinv
    have hrun : run_requests b ((key, now) :: rest)
        = run_requests ((b.allow_request key now).2) rest := rfl
    rw [hrun] at hk
    have hchain2 : ∀ k', List.Chain' (· ≤ ·) (timesOn rest k') := by
      intro k'
      have hck := hchain k'
      rw [timesOn_cons] at hck
      by_cases hkk : key = k'
      · rw [if_pos hkk] at hck
        exact hck.tail
      · rwa [if_neg hkk] at hck
    have hres := ih ((b.allow_request key now).2)
      (by rw [allow_request_capacity]; exact hc)
      (by rw [allow_request_refill_rate]; exact hr)
      (by rw [allow_request_refill_time]; exact ht)
      hchain2 hstep k tok last hk
    rwa [allow_request_capacity] at hres

/-- C2: starting from a fresh limiter (empty store) with positive
capacity, refill rate, and refill period, after any sequence of
`allow_request` calls whose call times are non-decreasing per key
(non-negative elapsed time between successive calls on each key), every
stored token count lies in `[0, capacity]`.  The sequence is arbitrary,
so this holds after every operation of every run. -/
theorem C2_tokens_within_bounds (c r t : ℚ) (hc : 0 < c) (hr : 0 < r) (ht : 0 < t)
    (ops : List (String × ℚ))
    (hmono : ∀ k, List.Chain' (· ≤ ·) (timesOn ops k)) :
    ∀ k tok last,
      (run_requests (TokenBucket.init c r t) ops).buckets k = some (tok, last) →
        0 ≤ tok ∧ tok ≤ c := by
  intro k tok last hk
  have hres := run_requests_inv ops (TokenBucket.init c r t) hc hr ht hmono
    (by intro k' tok' last' h; simp at h) k tok last hk
  simpa using hres

/-- Witness for C2: two calls on key `"a"` at times 0 and 1 against a
`1 per 1` bucket leave the stored entry at `(0, 1)`, inside `[0, 1]`. -/
theorem C2_witness :
    (run_requests (TokenBucket.init 1 1 1) [("a", 0), ("a", 1)]).buckets "a" = some (0, 1)
    ∧ (0 ≤ (0 : ℚ) ∧ (0 : ℚ) ≤ 1) := by
  have hlookup :
      (run_requests (TokenBucket.init 1 1 1) [("a", 0), ("a", 1)]).buckets "a"
        = some (0, 1) := by
    simp [run_requests, TokenBucket.allow_request, TokenBucket.ensure_key,
      TokenBucket.refill, TokenBucket.setKey, TokenBucket.init]
  refine ⟨hlookup, C2_tokens_within_bounds 1 1 1 (by norm_num) (by norm_num) (by norm_num)
    [("a", 0), ("a", 1)] ?_ "a" 0 1 hlookup⟩
  intro k
  by_cases hk : ("a" : String) = k
  · simp [timesOn, List.filter_cons, hk]
  · simp [timesOn, List.filter_cons, hk]

end SampleRateLimiter
